import Mathlib

/-!
# Verification of httprint (httprint.py)

A shallow embedding of the core logic of `httprint.py`: pickup-code
generation (`UploadHandler.generateCode`), upload spooling and PDF
validation (`UploadHandler.post`), queue resolution and print dispatch
(`PrintHandler.post`, `BaseHandler.print_file`), and the post-print
archive/delete cleanup (`BaseHandler._run`).

Filenames are modelled relative to the queue directory (the Python code
always manipulates `queue_dir/<name>`; the constant directory part is
dropped).  The queue directory is a list of such names, in directory
(glob) order.  Fallible OS operations (mkdir, move, unlink, file writes)
are driven by explicit oracles in an `Env`: an oracle returning `true`
means the corresponding Python call raises.
-/

namespace Httprint

/-! ## Character-list utilities (kernel-reducible string primitives) -/

/-- Lexicographic comparison of char lists by code point, the order
`sorted()` uses on Python strings. -/
def charsLe : List Char → List Char → Bool
  | [], _ => true
  | _ :: _, [] => false
  | a :: as, b :: bs =>
    if a.toNat < b.toNat then true
    else if b.toNat < a.toNat then false
    else charsLe as bs

/-- Test `charsPre p l`: `p` is a prefix of `l` (used to model both
`glob(pattern + '*')` matching and `str.startswith`). -/
def charsPre : List Char → List Char → Bool
  | [], _ => true
  | _ :: _, [] => false
  | a :: as, b :: bs => a == b && charsPre as bs

/-- Test `strLeB s t`: `s` sorts no later than `t` (Python string `<=`). -/
def strLeB (s t : String) : Bool := charsLe s.data t.data

/-- Test `strHasPre p s`: the name `s` starts with `p`, i.e. `s` matches the
glob pattern `p + '*'`. -/
def strHasPre (p s : String) : Bool := charsPre p.data s.data

/-- Test `strEndsWithB s suf`: model of Python `s.endswith(suf)`. -/
def strEndsWithB (s suf : String) : Bool := charsPre suf.data.reverse s.data.reverse

/-- Digit-list to number, most significant first. -/
def digitsToNat (ds : List Char) : Nat :=
  ds.foldl (fun acc c => 10 * acc + (c.toNat - 48)) 0

/-- Python `\s` on the characters that can occur inside one line
(newlines never appear in a line split on `'\n'`). -/
def isPySpace (c : Char) : Bool :=
  c == ' ' || c == '\t' || c == '\r' || c == Char.ofNat 11 || c == Char.ofNat 12

/-- Nonempty all-digit run parsed as a `Nat`. -/
def digitRun? (ds : List Char) : Option Nat :=
  if ds ≠ [] ∧ ds.all Char.isDigit then some (digitsToNat ds) else none

/-- Model of Python `int(s)` for a text field: optional surrounding
whitespace, optional sign, then a nonempty digit run; anything else
raises, modelled as `none`.  (Underscore digit separators are not
modelled; no claim involves them.) -/
def pyIntOfStr (s : String) : Option Int :=
  let cs := (s.data.dropWhile isPySpace).reverse.dropWhile isPySpace |>.reverse
  match cs with
  | '-' :: ds => (digitRun? ds).map (fun n => -(n : Int))
  | '+' :: ds => (digitRun? ds).map (fun n => (n : Int))
  | ds => (digitRun? ds).map (fun n => (n : Int))

/-! ## HTTP responses -/

/-- One JSON envelope written by `build_error` / `build_success`. -/
structure Resp where
  error : Bool
  message : String
  status : Nat
deriving DecidableEq, Repr

/-- Envelope of `build_error(message)` with its default 400 status. -/
def mkErr (m : String) : Resp := ⟨true, m, 400⟩

/-- Envelope of `build_success(message)` with its default 200 status. -/
def mkOk (m : String) : Resp := ⟨false, m, 200⟩

/-! ## Copy-count parsing -/

/-- Model of `UploadHandler.post` copies parsing: `copies = 1` then
`try: copies = int(self.get_argument('copies')); if copies < 1: copies = 1
except: pass`.  A missing argument raises inside the `try`, so `none`
(missing) and an unparseable string both leave the default 1. -/
def clampCopies (arg : Option String) : Int :=
  match arg with
  | none => 1
  | some s =>
    match pyIntOfStr s with
    | none => 1
    | some n => if n < 1 then 1 else n

/-- Model of `BaseHandler.print_file` sidecar read: `copies = 1` then
`try: copies = int(open(fname + '.copies').read()); if copies < 1:
copies = 1 except: pass`.  `none` models a missing or unreadable
sidecar. -/
def sidecarCopies (content : Option String) : Int :=
  match content with
  | none => 1
  | some s =>
    match pyIntOfStr s with
    | none => 1
    | some n => if n < 1 then 1 else n

/-! ## `pdfinfo` output parsing -/

/-- Match one line against `^Pages:\s+(\d+)$` (case-insensitive):
the literal `pages:`, at least one whitespace, a nonempty digit run,
end of line. -/
def pagesLine? (l : List Char) : Option Nat :=
  match l with
  | p :: a :: g :: e :: s :: colon :: rest =>
    if p.toLower == 'p' && a.toLower == 'a' && g.toLower == 'g' &&
       e.toLower == 'e' && s.toLower == 's' && colon == ':' then
      let ws := rest.takeWhile isPySpace
      let tail := rest.dropWhile isPySpace
      let ds := tail.takeWhile Char.isDigit
      let rest2 := tail.dropWhile Char.isDigit
      if ws ≠ [] ∧ ds ≠ [] ∧ rest2 = [] then some (digitsToNat ds) else none
    else none
  | _ => none

/-- Model of `int(re_pages.findall(out)[0])` where
`re_pages = re.compile('^Pages:\s+(\d+)$', re.M | re.I)`: the first line
of the output matching the pattern, `none` when no line matches (the
`IndexError` path). -/
def findPages (out : String) : Option Nat :=
  ((out.data.splitOn '\n').map pagesLine?).findSome? id

/-! ## Configuration, environment oracles, filesystem state -/

/-- The configuration options the core logic reads (`self.cfg.*`). -/
structure Cfg where
  maxPages : Int
  codeDigits : Nat
  checkPdfPages : Bool
  pdfOnly : Bool
  printWithCode : Bool
  archive : Bool
deriving DecidableEq, Repr

/-- Failure oracles for the fallible OS calls.  An oracle returning
`true` means the corresponding call raises an exception. -/
structure Env where
  mkdirFails : Bool
  moveFails : String → Bool
  unlinkFails : String → Bool
  writeFileFails : Bool
  writeInfoFails : Bool
  writeCopiesFails : Bool
  writeErr : String

/-- Filesystem state seen by the cleanup worker: the queue directory
listing (in glob order), whether the archive directory exists, and the
archive directory listing. -/
structure FS where
  queue : List String
  archiveDirExists : Bool
  archived : List String
deriving DecidableEq, Repr

/-! ## Post-print cleanup (`BaseHandler._run`)

`_run` waits for the print command (irrelevant to the filesystem model),
then, when archiving is enabled, creates the archive directory if absent
and moves every `glob(fname + '*')` file into it — any exception here
propagates out of `_run` uncaught.  Afterwards it unlinks every
remaining `glob(fname + '*')` file, swallowing per-file exceptions.
`glob` snapshots the listing and the loop consumes it left to right, so
the move pass is a single ordered walk of the queue listing. -/

/-- The archive move loop over the queue listing: returns the remaining
queue, the names moved into the archive, and whether `shutil.move`
raised (aborting the walk at the failing file). -/
def movePhase (env : Env) (pfx : String) : List String → List String × List String × Bool
  | [] => ([], [], false)
  | f :: rest =>
    if strHasPre pfx f then
      if env.moveFails f then (f :: rest, [], true)
      else
        let r := movePhase env pfx rest
        (r.1, f :: r.2.1, r.2.2)
    else
      let r := movePhase env pfx rest
      (f :: r.1, r.2.1, r.2.2)

/-- Model of the cleanup in `BaseHandler._run` acting on the filesystem: the resulting
state together with a flag recording whether an uncaught exception
escaped the worker (`true` = the worker crashed, the delete pass never
ran). -/
def runCleanup (cfg : Cfg) (env : Env) (pfx : String) (fs : FS) : FS × Bool :=
  let s1 : FS × Bool :=
    if cfg.archive then
      if !fs.archiveDirExists && env.mkdirFails then (fs, true)
      else
        let r := movePhase env pfx fs.queue
        ({ queue := r.1, archiveDirExists := true, archived := fs.archived ++ r.2.1 }, r.2.2)
    else (fs, false)
  if s1.2 then s1
  else
    ({ s1.1 with queue := s1.1.queue.filter fun f => !strHasPre pfx f || env.unlinkFails f },
     false)

/-! ## Code generation (`UploadHandler.generateCode`) -/

/-- Format `'%0Dd' % n`: decimal digits of `n`, zero-padded on the left to
width `D`. -/
def pad (d : Nat) (n : Nat) : String :=
  let s := toString n
  String.mk (List.replicate (d - s.length) '0' ++ s.data)

/-- The codes currently carried by queue filenames: for every basename
matching `re.match('(\d{D})-.*', fname)` — `D` digits followed by a
dash — collect the digit group. -/
def codesInQueue (d : Nat) (queue : List String) : List String :=
  queue.filterMap fun n =>
    if (n.data.take d).length = d ∧ (n.data.take d).all Char.isDigit ∧
       (n.data.drop d).head? = some '-' then
      some (String.mk (n.data.take d))
    else none

/-- The `for i in range(10**D)` loop body: walk the random draws, pad
each to `D` digits, break on the first code not in `existing`; when the
loop exhausts, the last drawn code is returned whether or not it was
fresh. -/
def generateCodeAux (d : Nat) (existing : List String) : List Nat → Option String
  | [] => none
  | n :: rest =>
    let c := pad d n
    if c ∈ existing then
      match rest with
      | [] => some c
      | _ :: _ => generateCodeAux d existing rest
    else some c

/-- Model of `UploadHandler.generateCode`, with the random stream made explicit:
`draws` are the successive `random.randint(0, 10**D - 1)` results, of
which the loop consumes at most `10^D`.  `none` only when no iteration
ran (then Python would return `None`). -/
def generateCode (d : Nat) (queue : List String) (draws : List Nat) : Option String :=
  generateCodeAux d (codesInQueue d queue) (draws.take (10 ^ d))

/-! ## Upload validation (`UploadHandler.post`, the pdfinfo block) -/

/-- The block guarded by `if check_pdf_pages or pdf_only`.  `insp` is
the outcome of `Popen(['pdfinfo', pname]) / communicate()`: `none` when
spawning raises (tool missing), otherwise the return code and decoded
standard output.  Returns the error envelopes written and the `failure`
flag. -/
def validate (cfg : Cfg) (copies : Int) (insp : Option (Int × String)) : List Resp × Bool :=
  if cfg.checkPdfPages || cfg.pdfOnly then
    match insp with
    | none => ([mkErr "unable to get PDF information"], true)
    | some (rc, out) =>
      let f1 : Bool := rc != 0 && cfg.pdfOnly
      let m1 : List Resp :=
        if f1 then [mkErr "the uploaded file does not seem to be a PDF"] else []
      match findPages out with
      | none =>
        if f1 then (m1, true)
        else (m1 ++ [mkErr "unable to get PDF information"], true)
      | some pages =>
        if (pages : Int) * copies > cfg.maxPages ∧ cfg.checkPdfPages ∧ f1 = false then
          (m1 ++ [mkErr ( "too many pages to print (" ++ toString ((pages : Int) * copies) ++ ")")],
           true)
        else (m1, f1)
  else ([], false)

/-! ## Upload handler (`UploadHandler.post`) -/

/-- Model of `os.path.splitext(webFname)[1]`: the suffix from the last
dot, unless every character before that dot is itself a dot (then the
extension is empty).  Uploaded filenames are basenames. -/
def splitextExt (s : String) : String :=
  match s.data.reverse.findIdx? (fun c => c == '.') with
  | none => ""
  | some r =>
    let i := s.data.length - 1 - r
    if (s.data.take i).any (fun c => c != '.') then String.mk (s.data.drop i) else ""

/-- The upload request: whether a `file` field is present, its client
filename, and the raw `copies` argument (`none` = absent). -/
structure UploadReq where
  hasFile : Bool
  webFname : String
  copiesArg : Option String
deriving Repr

/-- Observable outcome of one upload request: the envelopes written, the
queue listing afterwards, the generated code (when generation was
reached), and the file handed to `print_file` (direct-print mode). -/
structure UploadOut where
  resps : List Resp
  queue : List String
  code : Option String
  dispatched : Option String
deriving DecidableEq, Repr

/-- Code part of `'%s-%s%s' % (code, now, extension)`: Python renders a
`None` code (loop body never ran) as the string `"None"`. -/
def codeStrOf (cfg : Cfg) (queue : List String) (draws : List Nat) : String :=
  match generateCode cfg.codeDigits queue draws with
  | some c => c
  | none => "None"

/-- The spooled filename `'%s-%s%s' % (code, now, extension)`. -/
def uploadFname (cfg : Cfg) (req : UploadReq) (draws : List Nat) (now : String)
    (queue : List String) : String :=
  codeStrOf cfg queue draws ++ "-" ++ now ++ splitextExt req.webFname

/-- The queue listing after the payload write and the two best-effort
sidecar writes (`.info` / `.copies` are skipped when their write
raises; the exception is swallowed). -/
def spooledQueue (env : Env) (fname : String) (queue : List String) : List String :=
  let q1 := queue ++ [fname]
  let q2 := if env.writeInfoFails then q1 else q1 ++ [fname ++ ".info"]
  if env.writeCopiesFails then q2 else q2 ++ [fname ++ ".copies"]

/-- Model of `UploadHandler.post`.  `draws` is the random stream, `now` the
`time.strftime` timestamp, `insp` the `pdfinfo` outcome, `queue` the
queue listing when the request arrives.  Direct-mode dispatch
(`print_with_code` off) is recorded in `dispatched`; its detached
worker's later cleanup is not folded into the returned queue. -/
def uploadPost (cfg : Cfg) (env : Env) (req : UploadReq) (draws : List Nat) (now : String)
    (insp : Option (Int × String)) (queue : List String) : UploadOut :=
  if req.hasFile = false then ⟨[mkErr "no file uploaded"], queue, none, none⟩
  else
    let copies := clampCopies req.copiesArg
    if copies > cfg.maxPages then ⟨[mkErr "you have asked too many copies"], queue, none, none⟩
    else
      let code := codeStrOf cfg queue draws
      let fname := uploadFname cfg req draws now queue
      if env.writeFileFails then
        ⟨[mkErr ( "error writing file " ++ fname ++ ": " ++ env.writeErr)], queue, some code, none⟩
      else
        let q3 := spooledQueue env fname queue
        let v := validate cfg copies insp
        if v.2 then
          ⟨v.1, q3.filter fun f => !strHasPre fname f || env.unlinkFails f, some code, none⟩
        else if cfg.printWithCode then
          ⟨v.1 ++ [mkOk ( "go to the printer and enter this code: " ++ code)], q3, some code, none⟩
        else
          ⟨v.1 ++ [mkOk "file sent to printer"], q3, some code, some fname⟩

/-! ## Print handler (`PrintHandler.post`) -/

/-- Queue string order, as `sorted()` uses. -/
def strLeRel (a b : String) : Prop := strLeB a b = true

instance : DecidableRel strLeRel := fun a b => by unfold strLeRel; infer_instance

/-- Model of `sorted(...)` on queue names. -/
def sortStrings (l : List String) : List String := List.insertionSort strLeRel l

/-- Model of `PrintHandler.post`: resolve the code to
`[x for x in sorted(glob(queue_dir + '/<code>-*')) if not
x.endswith('.info') and not x.endswith('.pages')]` and dispatch the
first match via `print_file`.  Returns the envelopes written, the
dispatched file, and the filesystem once the dispatch worker's cleanup
(`_run`) has completed (unchanged when nothing is dispatched). -/
def printPost (cfg : Cfg) (env : Env) (code : String) (fs : FS) :
    List Resp × Option String × FS :=
  if code = "" then ([mkErr "empty code"], none, fs)
  else
    let files := (sortStrings (fs.queue.filter (strHasPre (code ++ "-")))).filter
      fun f => !strEndsWithB f ".info" && !strEndsWithB f ".pages"
    match files with
    | [] => ([mkErr "no matching files"], none, fs)
    | f :: _ => ([mkOk "file sent to printer"], some f, (runCleanup cfg env f fs).1)

/-! ## Concrete fixtures -/

/-- Environment where all OS calls succeed. -/
def envOk : Env := ⟨false, fun _ => false, fun _ => false, false, false, false, "disk full"⟩

/-- Configuration with archiving enabled, validation disabled, print-with-code mode. -/
def cfgArch : Cfg := ⟨10, 4, false, false, true, true⟩

/-- Configuration with archiving disabled, validation disabled, print-with-code mode. -/
def cfgNoArch : Cfg := ⟨10, 4, false, false, true, false⟩

/-- Configuration with page checking on and pdf-only off (maximum 5 pages). -/
def cfgCheck : Cfg := ⟨5, 4, true, false, true, true⟩

/-- Configuration with both checks enabled (maximum 5 pages). -/
def cfgBoth : Cfg := ⟨5, 4, true, true, true, true⟩

/-- Environment where every `shutil.move` raises. -/
def envMoveBoom : Env := ⟨false, fun _ => true, fun _ => false, false, false, false, "e"⟩

/-- Environment where unlinking the `.info` sidecar raises and everything else succeeds. -/
def envUnlinkBoom : Env := ⟨false, fun _ => false, fun f => f == "p-1.info", false, false, false, "e"⟩

/-- Queue holding a single prefix-matching file. -/
def fsOne : FS := ⟨ [ "p-1"], true, []⟩

/-- Queue holding a payload, its sidecar and an unrelated file. -/
def fsGroup : FS := ⟨ [ "p-1", "p-1.info", "q-2"], false, []⟩

/-- Queue carrying all ten width-1 codes. -/
def queueFull : List String :=
  [ "0-a", "1-a", "2-a", "3-a", "4-a", "5-a", "6-a", "7-a", "8-a", "9-a"]

/-- Upload request whose client filename ends in `.info`. -/
def reqDotInfo : UploadReq := ⟨true, "doc.info", none⟩

/-! ## Supporting lemmas -/

theorem charToNat_inj {a b : Char} (h : a.toNat = b.toNat) : a = b := by
  cases a with | mk va ha => cases b with | mk vb hb =>
  simp only [Char.toNat] at h
  have : va = vb := by
    cases va; cases vb
    simp only [UInt32.toNat] at h
    congr 1
    exact BitVec.toNat_injective h
  subst this
  rfl

theorem charsLe_refl : ∀ l : List Char, charsLe l l = true := by
  intro l
  induction l with
  | nil => rfl
  | cons a as ih => simp [charsLe, Nat.lt_irrefl, ih]

theorem charsLe_trans : ∀ l m n : List Char,
    charsLe l m = true → charsLe m n = true → charsLe l n = true := by
  intro l
  induction l with
  | nil => intro m n _ _; rfl
  | cons a as ih =>
    intro m n h1 h2
    cases m with
    | nil => simp [charsLe] at h1
    | cons b bs =>
      cases n with
      | nil => simp [charsLe] at h2
      | cons c cs =>
        simp only [charsLe] at h1 h2 ⊢
        split_ifs at h1 h2 ⊢ <;>
          first
          | rfl
          | omega
          | simp at h1
          | simp at h2
          | exact ih bs cs h1 h2

theorem charsLe_total : ∀ l m : List Char, charsLe l m = true ∨ charsLe m l = true := by
  intro l
  induction l with
  | nil => intro m; left; rfl
  | cons a as ih =>
    intro m
    cases m with
    | nil => right; rfl
    | cons b bs =>
      simp only [charsLe]
      rcases Nat.lt_trichotomy a.toNat b.toNat with h | h | h
      · left; simp [h]
      · rcases ih bs with h2 | h2
        · left; simp [h, Nat.lt_irrefl, h2]
        · right; simp [h, Nat.lt_irrefl, h2]
      · right; simp [h, Nat.lt_asymm h]

theorem charsLe_antisymm : ∀ l m : List Char,
    charsLe l m = true → charsLe m l = true → l = m := by
  intro l
  induction l with
  | nil =>
    intro m _ h2
    cases m with
    | nil => rfl
    | cons b bs => simp [charsLe] at h2
  | cons a as ih =>
    intro m h1 h2
    cases m with
    | nil => simp [charsLe] at h1
    | cons b bs =>
      simp only [charsLe] at h1 h2
      split_ifs at h1 h2 <;>
        first
        | omega
        | simp at h1
        | simp at h2
        | (have hab : a = b := charToNat_inj (by omega)
           subst hab
           exact congrArg (List.cons a) (ih bs h1 h2))

theorem charsLe_append_self : ∀ l t : List Char, charsLe l (l ++ t) = true := by
  intro l t
  induction l with
  | nil => rfl
  | cons a as ih => simp [charsLe, Nat.lt_irrefl, ih]

theorem charsPre_append_self : ∀ l t : List Char, charsPre l (l ++ t) = true := by
  intro l t
  induction l with
  | nil => rfl
  | cons a as ih => simp [charsPre, ih]

theorem strLeRel_refl (s : String) : strLeRel s s := charsLe_refl s.data

theorem strLeRel_antisymm {s t : String} (h1 : strLeRel s t) (h2 : strLeRel t s) : s = t :=
  String.toList_inj.mp (charsLe_antisymm s.data t.data h1 h2)

theorem strLeRel_append (s t : String) : strLeRel s (s ++ t) := by
  show charsLe s.data (s ++ t).data = true
  rw [String.data_append]
  exact charsLe_append_self s.data t.data

theorem strEndsWithB_append (a suf : String) : strEndsWithB (a ++ suf) suf = true := by
  show charsPre suf.data.reverse (a ++ suf).data.reverse = true
  rw [String.data_append, List.reverse_append]
  exact charsPre_append_self suf.data.reverse a.data.reverse

theorem movePhase_no_match (env : Env) (pfx : String) :
    ∀ l : List String, (∀ f ∈ l, strHasPre pfx f = false) →
      movePhase env pfx l = (l, [], false) := by
  intro l
  induction l with
  | nil => intro _; rfl
  | cons f rest ih =>
    intro h
    have hf : strHasPre pfx f = false := h f (by simp)
    have hr := ih fun g hg => h g (by simp [hg])
    simp [movePhase, hf, hr]

theorem movePhase_all_ok (env : Env) (pfx : String) :
    ∀ l : List String, (∀ f ∈ l, strHasPre pfx f = true → env.moveFails f = false) →
      movePhase env pfx l =
        (l.filter (fun f => !strHasPre pfx f), l.filter (fun f => strHasPre pfx f), false) := by
  intro l
  induction l with
  | nil => intro _; rfl
  | cons f rest ih =>
    intro h
    have hr := ih fun g hg => h g (by simp [hg])
    cases hpre : strHasPre pfx f with
    | true =>
      have hmv : env.moveFails f = false := h f (by simp) hpre
      simp [movePhase, hpre, hmv, hr, List.filter_cons]
    | false =>
      simp [movePhase, hpre, hr, List.filter_cons]

theorem movePhase_ok_queue (env : Env) (pfx : String) :
    ∀ (l q m : List String), movePhase env pfx l = (q, m, false) →
      q = l.filter (fun f => !strHasPre pfx f) := by
  intro l
  induction l with
  | nil =>
    intro q m h
    simp only [movePhase, Prod.mk.injEq] at h
    simp [← h.1]
  | cons f rest ih =>
    intro q m h
    cases hpre : strHasPre pfx f with
    | true =>
      cases hmv : env.moveFails f with
      | true => simp [movePhase, hpre, hmv] at h
      | false =>
        simp only [movePhase, hpre, hmv, Bool.false_eq_true, if_true, if_false] at h
        rcases hrec : movePhase env pfx rest with ⟨q', m', c'⟩
        rw [hrec] at h
        simp only [Prod.mk.injEq] at h
        obtain ⟨hq, hm, hc⟩ := h
        subst hc
        simp [List.filter_cons, hpre, ← hq, ih q' m' hrec]
    | false =>
      simp only [movePhase, hpre, Bool.false_eq_true, if_false] at h
      rcases hrec : movePhase env pfx rest with ⟨q', m', c'⟩
      rw [hrec] at h
      simp only [Prod.mk.injEq] at h
      obtain ⟨hq, hm, hc⟩ := h
      subst hc
      simp [List.filter_cons, hpre, ← hq, ih q' m' hrec]

/-! ## C1 — cleanup delete pass vs. archive-phase failures -/

/-- C1 counterexample: with archiving enabled and `shutil.move` raising,
`_run` crashes (the exception escapes the worker) and the delete pass
never runs — the prefix file stays in the queue even though unlinking it
would have succeeded.  This refutes the claim that the delete pass is
executed regardless of the archive phase's outcome and that no failure
in either phase crashes the cleanup worker. -/
theorem runCleanup_crashes_on_move_failure :
    runCleanup cfgArch envMoveBoom "p-" fsOne = (fsOne, true) ∧
    envMoveBoom.unlinkFails "p-1" = false := by decide

/-- C1 (amended): whenever the archive phase raises no exception —
always the case when archiving is disabled, and, when enabled, whenever
the needed `makedirs` and every `shutil.move` of a prefix-matching file
succeed — the cleanup finishes without crashing and the delete pass
runs, swallowing per-file unlink errors (the unlink oracle is
unconstrained).  An archive-phase failure instead propagates and skips
the delete pass (see the counterexample). -/
theorem runCleanup_delete_when_archive_ok (cfg : Cfg) (env : Env) (pfx : String) (fs : FS)
    (harch : cfg.archive = true → (fs.archiveDirExists = false → env.mkdirFails = false) ∧
      ∀ f ∈ fs.queue, strHasPre pfx f = true → env.moveFails f = false) :
    runCleanup cfg env pfx fs =
      if cfg.archive then
        (⟨fs.queue.filter (fun f => !strHasPre pfx f), true,
          fs.archived ++ fs.queue.filter (fun f => strHasPre pfx f)⟩, false)
      else
        (⟨fs.queue.filter (fun f => !strHasPre pfx f || env.unlinkFails f),
          fs.archiveDirExists, fs.archived⟩, false) := by
  cases harchive : cfg.archive with
  | false =>
    simp [runCleanup, harchive]
  | true =>
    obtain ⟨hmk, hmv⟩ := harch harchive
    have hcond : (!fs.archiveDirExists && env.mkdirFails) = false := by
      cases hdir : fs.archiveDirExists with
      | true => simp
      | false => simp [hmk hdir]
    have hmove := movePhase_all_ok env pfx fs.queue hmv
    have hkeep : ∀ x ∈ fs.queue.filter (fun f => !strHasPre pfx f),
        (!strHasPre pfx x || env.unlinkFails x) = true := by
      intro x hx
      have := (List.mem_filter.mp hx).2
      simp_all
    simp [runCleanup, harchive, hcond, hmove, List.filter_eq_self.mpr hkeep]

/-- C1 amended witness: archiving disabled, one unlink raising — the
worker does not crash, the failing file survives, the rest of the
prefix group is deleted. -/
theorem runCleanup_delete_when_archive_ok_witness :
    runCleanup cfgNoArch envUnlinkBoom "p-" fsGroup =
      (⟨[ "p-1.info", "q-2"], false, []⟩, false) :=
  (runCleanup_delete_when_archive_ok cfgNoArch envUnlinkBoom "p-" fsGroup (by decide)).trans
    (by decide)

/-! ## C8 — idempotence of the cleanup -/

/-- A cleanup run that completes without an uncaught exception is a
fixed point: a second run on the same prefix ends in exactly the same
filesystem state and does not crash.  Deterministic per-file oracles
make this hold even when some unlinks failed on the first pass: the
second pass fails on exactly the same files. -/
theorem runCleanup_idem (cfg : Cfg) (env : Env) (pfx : String) (fs fs' : FS)
    (h : runCleanup cfg env pfx fs = (fs', false)) :
    runCleanup cfg env pfx fs' = (fs', false) := by
  cases harchive : cfg.archive with
  | false =>
    simp only [runCleanup, harchive, Bool.false_eq_true, if_false] at h ⊢
    obtain ⟨hfs', -⟩ := Prod.mk.injEq .. |>.mp h
    subst hfs'
    have hkeep : ∀ x ∈ fs.queue.filter (fun f => !strHasPre pfx f || env.unlinkFails f),
        (!strHasPre pfx x || env.unlinkFails x) = true := by
      intro x hx
      exact (List.mem_filter.mp hx).2
    simp [List.filter_eq_self.mpr hkeep]
  | true =>
    rw [runCleanup] at h
    simp only [harchive, if_true] at h
    by_cases hmd : (!fs.archiveDirExists && env.mkdirFails) = true
    · rw [if_pos hmd] at h
      simp at h
    · rw [if_neg hmd] at h
      rcases hrec : movePhase env pfx fs.queue with ⟨q, mv, c⟩
      rw [hrec] at h
      cases c with
      | true => simp at h
      | false =>
        have hq : q = fs.queue.filter (fun f => !strHasPre pfx f) :=
          movePhase_ok_queue env pfx fs.queue q mv hrec
        have hkeep : ∀ x ∈ q, (!strHasPre pfx x || env.unlinkFails x) = true := by
          intro x hx
          rw [hq] at hx
          have := (List.mem_filter.mp hx).2
          simp_all
        have hnopre : ∀ x ∈ q, strHasPre pfx x = false := by
          intro x hx
          rw [hq] at hx
          have := (List.mem_filter.mp hx).2
          simp_all
        simp only [Bool.false_eq_true, if_false, List.filter_eq_self.mpr hkeep] at h
        obtain ⟨hfs', -⟩ := Prod.mk.injEq .. |>.mp h
        subst hfs'
        rw [runCleanup]
        simp only [harchive, if_true]
        simp [movePhase_no_match env pfx q hnopre, List.filter_eq_self.mpr hkeep]

/-- A crashed move pass leaves a queue on which the move pass crashes
again immediately, without moving anything further. -/
theorem movePhase_crash (env : Env) (pfx : String) :
    ∀ l q m : List String, movePhase env pfx l = (q, m, true) →
      movePhase env pfx q = (q, [], true) := by
  intro l
  induction l with
  | nil => intro q m h; simp [movePhase, Prod.mk.injEq] at h
  | cons f rest ih =>
    intro q m h
    cases hpre : strHasPre pfx f with
    | true =>
      cases hmf : env.moveFails f with
      | true =>
        simp only [movePhase, hpre, hmf, if_true] at h
        obtain ⟨h1, -, -⟩ := Prod.mk.injEq .. |>.mp h
        rw [← h1]
        simp [movePhase, hpre, hmf]
      | false =>
        simp only [movePhase, hpre, hmf, Bool.false_eq_true, if_true, if_false] at h
        rcases hrec : movePhase env pfx rest with ⟨q', m', c'⟩
        rw [hrec] at h
        simp only [Prod.mk.injEq] at h
        obtain ⟨h1, -, h3⟩ := h
        subst h3
        rw [← h1]
        exact ih q' m' hrec
    | false =>
      simp only [movePhase, hpre, Bool.false_eq_true, if_false] at h
      rcases hrec : movePhase env pfx rest with ⟨q', m', c'⟩
      rw [hrec] at h
      simp only [Prod.mk.injEq] at h
      obtain ⟨h1, -, h3⟩ := h
      subst h3
      have hq' := ih q' m' hrec
      rw [← h1]
      simp [movePhase, hpre, hq']

/-- C8: for every filesystem state, configuration and oracle
environment, running the archive-then-delete cleanup twice on the same
prefix ends in exactly the state (and crash outcome) of running it
once: a completed first run leaves nothing prefix-matching for the
second to act on, and even a crashed first run crashes the second run
at the same file with no further change. -/
theorem runCleanup_idem_full (cfg : Cfg) (env : Env) (pfx : String) (fs : FS) :
    runCleanup cfg env pfx (runCleanup cfg env pfx fs).1 = runCleanup cfg env pfx fs := by
  rcases hrun : runCleanup cfg env pfx fs with ⟨fs', crashed⟩
  cases crashed with
  | false => exact runCleanup_idem cfg env pfx fs fs' hrun
  | true =>
    cases harchive : cfg.archive with
    | false => simp [runCleanup, harchive] at hrun
    | true =>
      by_cases hmd : (!fs.archiveDirExists && env.mkdirFails) = true
      · have hrc : runCleanup cfg env pfx fs = (fs, true) := by
          rw [runCleanup]
          simp [harchive, hmd]
        rw [hrc] at hrun
        obtain ⟨h1, -⟩ := Prod.mk.injEq .. |>.mp hrun
        rw [← h1]
        exact hrc
      · rcases hmv : movePhase env pfx fs.queue with ⟨q, m, c⟩
        cases c with
        | false =>
          have : runCleanup cfg env pfx fs =
              ({ queue := q.filter fun f => !strHasPre pfx f || env.unlinkFails f,
                 archiveDirExists := true, archived := fs.archived ++ m }, false) := by
            rw [runCleanup]
            simp [harchive, hmd, hmv]
          rw [this] at hrun
          simp at hrun
        | true =>
          have hrc : runCleanup cfg env pfx fs = (⟨q, true, fs.archived ++ m⟩, true) := by
            rw [runCleanup]
            simp [harchive, hmd, hmv]
          rw [hrc] at hrun
          obtain ⟨h1, -⟩ := Prod.mk.injEq .. |>.mp hrun
          rw [← h1]
          show runCleanup cfg env pfx ⟨q, true, fs.archived ++ m⟩ =
            (⟨q, true, fs.archived ++ m⟩, true)
          have hq2 : movePhase env pfx q = (q, [], true) :=
            movePhase_crash env pfx fs.queue q m hmv
          rw [runCleanup]
          simp [harchive, hq2]

/-! ## C2 — code generation -/

theorem digitChar_isDigit {k : Nat} (h : k < 10) : (Nat.digitChar k).isDigit = true := by
  interval_cases k <;> decide

theorem toDigitsCore_digits (b : Nat) (hb : 2 ≤ b) (hb10 : b ≤ 10) :
    ∀ (fuel n : Nat) (acc : List Char), (∀ c ∈ acc, c.isDigit = true) →
      ∀ c ∈ Nat.toDigitsCore b fuel n acc, c.isDigit = true := by
  intro fuel
  induction fuel with
  | zero => intro n acc hacc c hc; exact hacc c hc
  | succ fuel ih =>
    intro n acc hacc c hc
    have hdig : (Nat.digitChar (n % b)).isDigit = true :=
      digitChar_isDigit (lt_of_lt_of_le (Nat.mod_lt n (by omega)) hb10)
    simp only [Nat.toDigitsCore] at hc
    split at hc
    · rcases List.mem_cons.mp hc with h | h
      · exact h ▸ hdig
      · exact hacc c h
    · refine ih (n / b) (Nat.digitChar (n % b) :: acc) ?_ c hc
      intro x hx
      rcases List.mem_cons.mp hx with h | h
      · exact h ▸ hdig
      · exact hacc x h

theorem reprDigits (n : Nat) : ∀ c ∈ (Nat.repr n).data, c.isDigit = true := by
  intro c hc
  have : (Nat.repr n).data = Nat.toDigitsCore 10 (n + 1) n [] := rfl
  rw [this] at hc
  exact toDigitsCore_digits 10 (by omega) (by omega) (n + 1) n [] (by simp) c hc

theorem pad_length {d n : Nat} (hd : 1 ≤ d) (hn : n < 10 ^ d) : (pad d n).length = d := by
  have hle : (Nat.repr n).data.length ≤ d := Nat.repr_length n d hd hn
  show (String.mk (List.replicate (d - (toString n).length) '0' ++ (toString n).data)).length = d
  have h1 : toString n = Nat.repr n := rfl
  rw [h1]
  show (List.replicate (d - (Nat.repr n).data.length) '0' ++ (Nat.repr n).data).length = d
  rw [List.length_append, List.length_replicate]
  omega

theorem pad_digits (d n : Nat) : (pad d n).data.all Char.isDigit = true := by
  simp only [pad, List.all_eq_true]
  intro c hc
  rcases List.mem_append.mp hc with h | h
  · simp [List.eq_of_mem_replicate h]
  · exact reprDigits n c h

theorem generateCodeAux_mem_pad (d : Nat) (existing : List String) :
    ∀ (l : List Nat) (c : String), generateCodeAux d existing l = some c → ∃ n ∈ l, c = pad d n := by
  intro l
  induction l with
  | nil => intro c h; simp [generateCodeAux] at h
  | cons n rest ih =>
    intro c h
    simp only [generateCodeAux] at h
    split at h
    · cases rest with
      | nil =>
        refine ⟨n, by simp, ?_⟩
        simpa using h.symm
      | cons n' rest' =>
        obtain ⟨m, hm, hc⟩ := ih c h
        exact ⟨m, by simp [hm], hc⟩
    · refine ⟨n, by simp, ?_⟩
      simpa using h.symm

theorem generateCodeAux_fresh (d : Nat) (existing : List String) :
    ∀ l : List Nat, (∃ n ∈ l, pad d n ∉ existing) →
      ∃ c, generateCodeAux d existing l = some c ∧ c ∉ existing := by
  intro l
  induction l with
  | nil => intro h; simp at h
  | cons n rest ih =>
    intro h
    by_cases h1 : pad d n ∈ existing
    · have hrest : ∃ m ∈ rest, pad d m ∉ existing := by
        rcases h with ⟨m, hm, hfr⟩
        rcases List.mem_cons.mp hm with rfl | hm'
        · exact absurd h1 hfr
        · exact ⟨m, hm', hfr⟩
      cases rest with
      | nil =>
        rcases hrest with ⟨m, hm, -⟩
        simp at hm
      | cons n' rest' =>
        obtain ⟨c, hc, hfr⟩ := ih hrest
        refine ⟨c, ?_, hfr⟩
        have hstep : generateCodeAux d existing (n :: n' :: rest') =
            generateCodeAux d existing (n' :: rest') := by
          simp [generateCodeAux, h1]
        rw [hstep, hc]
    · exact ⟨pad d n, by simp [generateCodeAux, h1], h1⟩

/-- C2 counterexample: with digit width 1 and every code 0–9 already
queued, the bounded loop (here the full `10^1` draws `0,…,9`, each below
`10^1`) finds no fresh code and `generateCode` returns the last draw
`"9"` — a code already carried by a queued filename.  This refutes the
claim that the returned code is never among the currently-queued
codes. -/
theorem generateCode_collision :
    generateCode 1 queueFull (List.range 10) = some "9" ∧ "9" ∈ codesInQueue 1 queueFull := by
  decide

/-- C2 (amended): the generated code always consists of exactly `D`
digits (given `D ≥ 1` and draws below `10^D`, as `randint` guarantees),
and it avoids every code currently carried by a queued filename
whenever at least one of the `10^D` bounded draws is fresh; when all
bounded draws collide — e.g. when the queue already carries all `10^D`
codes — the last draw, an in-use code, is returned instead (see the
counterexample). -/
theorem generateCode_fresh_code (d : Nat) (queue : List String) (draws : List Nat)
    (hd : 1 ≤ d) (hlt : ∀ n ∈ draws, n < 10 ^ d)
    (hfresh : ∃ n ∈ draws.take (10 ^ d), pad d n ∉ codesInQueue d queue) :
    ∃ c, generateCode d queue draws = some c ∧
      c.length = d ∧ c.data.all Char.isDigit = true ∧ c ∉ codesInQueue d queue := by
  obtain ⟨c, hc, hfr⟩ := generateCodeAux_fresh d (codesInQueue d queue) (draws.take (10 ^ d)) hfresh
  obtain ⟨n, hn, rfl⟩ := generateCodeAux_mem_pad d (codesInQueue d queue) (draws.take (10 ^ d)) _ hc
  exact ⟨pad d n, hc, pad_length hd (hlt n (List.take_subset _ _ hn)), pad_digits d n, hfr⟩

/-- C2 amended witness: width 1, code 3 queued, draws `3,3,5`: the third
draw is fresh and `"5"` is returned. -/
theorem generateCode_fresh_code_witness :
    ∃ c, generateCode 1 [ "3-x"] [3, 3, 5] = some c ∧
      c.length = 1 ∧ c.data.all Char.isDigit = true ∧ c ∉ codesInQueue 1 [ "3-x"] :=
  generateCode_fresh_code 1 [ "3-x"] [3, 3, 5] (by decide) (by decide) (by decide)

/-! ## C7 — copy-count clamping -/

/-- C7: whenever the supplied copies value is absent, non-numeric, zero
or negative (that is, it does not parse to an integer `≥ 1`), both the
upload request's copies parsing and `print_file`'s `.copies` sidecar
read resolve to an effective copy count of 1; a missing or unreadable
sidecar (`none`) likewise yields 1. -/
theorem copies_clamped_to_one (a : Option String)
    (h : (a.elim 0 fun s => (pyIntOfStr s).getD 0) < 1) :
    clampCopies a = 1 ∧ sidecarCopies a = 1 := by
  cases a with
  | none => exact ⟨rfl, rfl⟩
  | some s =>
    cases hp : pyIntOfStr s with
    | none => simp [clampCopies, sidecarCopies, hp]
    | some n =>
      simp only [Option.elim, hp, Option.getD] at h
      simp [clampCopies, sidecarCopies, hp, h]

/-- C7 witness: a negative copies value resolves to 1 on both paths. -/
theorem copies_clamped_to_one_witness :
    clampCopies (some "-3") = 1 ∧ sidecarCopies (some "-3") = 1 :=
  copies_clamped_to_one (some "-3") (by decide)

/-! ## Validation characterizations (C4, C5, C6) -/

/-- When `pdf_only` is on and the inspection exit status is non-zero,
validation writes exactly the not-a-PDF error and fails, whatever the
output says and whether or not the page check is enabled. -/
theorem validate_pdf_only (cfg : Cfg) (copies : Int) (rc : Int) (out : String)
    (hpo : cfg.pdfOnly = true) (hrc : rc ≠ 0) :
    validate cfg copies (some (rc, out)) =
      ([mkErr "the uploaded file does not seem to be a PDF"], true) := by
  have hg : (cfg.checkPdfPages || cfg.pdfOnly) = true := by simp [hpo]
  have hf1 : (rc != 0 && cfg.pdfOnly) = true := by simp [hpo, hrc]
  rw [validate]
  simp only [hg, if_true]
  cases hfp : findPages out with
  | none => simp [hf1, hfp]
  | some pages => simp [hf1, hfp]

/-- When the page check is on, the output parses to a page count, the
pdf-only gate did not fire, and `pages * copies` exceeds the maximum,
validation writes exactly the quota error reporting the product. -/
theorem validate_quota (cfg : Cfg) (copies : Int) (rc : Int) (out : String) (pages : Nat)
    (hck : cfg.checkPdfPages = true)
    (hfp : findPages out = some pages)
    (hnot : ¬(cfg.pdfOnly = true ∧ rc ≠ 0))
    (hover : (pages : Int) * copies > cfg.maxPages) :
    validate cfg copies (some (rc, out)) =
      ([mkErr ( "too many pages to print (" ++ toString ((pages : Int) * copies) ++ ")")],
       true) := by
  have hg : (cfg.checkPdfPages || cfg.pdfOnly) = true := by simp [hck]
  have hf1 : (rc != 0 && cfg.pdfOnly) = false := by
    cases hpo : cfg.pdfOnly with
    | false => simp
    | true =>
      have : rc = 0 := by
        by_contra hne
        exact hnot ⟨hpo, hne⟩
      simp [this]
  rw [validate]
  simp only [hg, if_true]
  simp [hf1, hfp, hover, hck]

/-- C6: validation writes exactly one rejection envelope when it fails
and none when it passes, and the pdf-only rejection, once triggered,
short-circuits the later checks: its message is the only one written,
taking precedence over the page-quota and unparseable-output
messages. -/
theorem validate_single_message (cfg : Cfg) (copies : Int) (insp : Option (Int × String)) :
    ((validate cfg copies insp).2 = true → (validate cfg copies insp).1.length = 1) ∧
    ((validate cfg copies insp).2 = false → (validate cfg copies insp).1 = []) ∧
    (∀ rc out, insp = some (rc, out) → cfg.pdfOnly = true → rc ≠ 0 →
      (validate cfg copies insp).1 = [mkErr "the uploaded file does not seem to be a PDF"]) := by
  refine ⟨?_, ?_, ?_⟩
  · rw [validate.eq_def]
    split
    · cases insp with
      | none => simp
      | some p =>
        obtain ⟨rc, out⟩ := p
        cases hrc : (rc != 0 && cfg.pdfOnly) <;>
          cases hfp : findPages out <;>
            simp [hrc, hfp] <;> split_ifs <;> simp_all
    · simp
  · rw [validate.eq_def]
    split
    · cases insp with
      | none => simp
      | some p =>
        obtain ⟨rc, out⟩ := p
        cases hrc : (rc != 0 && cfg.pdfOnly) <;>
          cases hfp : findPages out <;>
            simp [hrc, hfp] <;> split_ifs <;> simp_all
    · simp
  · intro rc out hi hpo hrc
    subst hi
    rw [validate_pdf_only cfg copies rc out hpo hrc]

/-- C6 witness: a failing inspection (`pdfinfo` exit status 1) with an
output whose page count would also break the quota — a single envelope
is written and it is the pdf-only message. -/
theorem validate_single_message_witness :
    (validate cfgBoth 1 (some (1, "Pages: 100"))).1.length = 1 ∧
    (validate cfgBoth 1 (some (1, "Pages: 100"))).1 =
      [mkErr "the uploaded file does not seem to be a PDF"] :=
  ⟨(validate_single_message cfgBoth 1 (some (1, "Pages: 100"))).1 (by decide),
   (validate_single_message cfgBoth 1 (some (1, "Pages: 100"))).2.2 1 "Pages: 100" rfl rfl
     (by decide)⟩

/-- Shape of `UploadHandler.post` when the request reaches validation
and validation fails: the validator's envelopes are the whole response
and the spooled group is glob-deleted (best effort). -/
theorem uploadPost_validation_failure (cfg : Cfg) (env : Env) (req : UploadReq)
    (draws : List Nat) (now : String) (insp : Option (Int × String)) (queue : List String)
    (msgs : List Resp)
    (hfile : req.hasFile = true)
    (hcopies : clampCopies req.copiesArg ≤ cfg.maxPages)
    (hwr : env.writeFileFails = false)
    (hval : validate cfg (clampCopies req.copiesArg) insp = (msgs, true)) :
    uploadPost cfg env req draws now insp queue =
      ⟨msgs,
       (spooledQueue env (uploadFname cfg req draws now queue) queue).filter
         (fun f => !strHasPre (uploadFname cfg req draws now queue) f || env.unlinkFails f),
       some (codeStrOf cfg queue draws), none⟩ := by
  rw [uploadPost]
  simp [hfile, not_lt.mpr hcopies, hwr, hval, uploadFname]

/-- After a best-effort delete pass whose unlinks all succeed, nothing
matching the prefix survives. -/
theorem filter_no_pre (env : Env) (hunlink : ∀ f, env.unlinkFails f = false)
    (fname : String) (l : List String) :
    ∀ f ∈ l.filter (fun f => !strHasPre fname f || env.unlinkFails f),
      strHasPre fname f = false := by
  intro f hf
  have h2 := (List.mem_filter.mp hf).2
  rw [hunlink f] at h2
  simpa using h2

/-! ## C5 — pdf-only rejection -/

/-- C5: with `pdf-only` enabled, a non-zero inspection exit status gets
the upload rejected with the not-a-PDF message and its whole spooled
file group deleted from the queue — for every inspection output `out`
and page-check setting, i.e. independently of whether the page-count
check would have passed or failed. -/
theorem uploadPost_pdf_only_reject (cfg : Cfg) (env : Env) (req : UploadReq)
    (draws : List Nat) (now : String) (rc : Int) (out : String) (queue : List String)
    (hfile : req.hasFile = true)
    (hcopies : clampCopies req.copiesArg ≤ cfg.maxPages)
    (hpo : cfg.pdfOnly = true)
    (hrc : rc ≠ 0)
    (hwr : env.writeFileFails = false)
    (hunlink : ∀ f, env.unlinkFails f = false) :
    (uploadPost cfg env req draws now (some (rc, out)) queue).resps =
      [mkErr "the uploaded file does not seem to be a PDF"] ∧
    ∀ f ∈ (uploadPost cfg env req draws now (some (rc, out)) queue).queue,
      strHasPre (uploadFname cfg req draws now queue) f = false := by
  have hval := validate_pdf_only cfg (clampCopies req.copiesArg) rc out hpo hrc
  rw [uploadPost_validation_failure cfg env req draws now (some (rc, out)) queue _
    hfile hcopies hwr hval]
  exact ⟨rfl, filter_no_pre env hunlink _ _⟩

/-- C5 witness: `pdfinfo` exits 1 on an upload whose output would have
passed the page check; the not-a-PDF rejection is written and the
spooled group is gone. -/
theorem uploadPost_pdf_only_reject_witness :
    (uploadPost cfgBoth envOk ⟨true, "f.pdf", some "2"⟩ [7] "20200101"
        (some (1, "Pages: 1")) []).resps =
      [mkErr "the uploaded file does not seem to be a PDF"] ∧
    ∀ f ∈ (uploadPost cfgBoth envOk ⟨true, "f.pdf", some "2"⟩ [7] "20200101"
        (some (1, "Pages: 1")) []).queue,
      strHasPre (uploadFname cfgBoth ⟨true, "f.pdf", some "2"⟩ [7] "20200101" []) f = false :=
  uploadPost_pdf_only_reject cfgBoth envOk ⟨true, "f.pdf", some "2"⟩ [7] "20200101" 1
    "Pages: 1" [] rfl (by decide) rfl (by decide) rfl (fun _ => rfl)

/-! ## C4 — page-quota rejection -/

/-- C4: with `check-pdf-pages` enabled, when the inspection output
reports `pages` and the effective copy count `C` satisfies
`pages * C > maxPages` — and the pdf-only gate did not fire first (see
C5/C6 for that precedence) — the upload is rejected with the message
reporting the product `pages * C`, and no file carrying the upload's
filename prefix remains in the queue (all unlinks succeeding). -/
theorem uploadPost_page_quota_reject (cfg : Cfg) (env : Env) (req : UploadReq)
    (draws : List Nat) (now : String) (rc : Int) (out : String) (pages : Nat)
    (queue : List String)
    (hfile : req.hasFile = true)
    (hcopies : clampCopies req.copiesArg ≤ cfg.maxPages)
    (hck : cfg.checkPdfPages = true)
    (hfp : findPages out = some pages)
    (hnot : ¬(cfg.pdfOnly = true ∧ rc ≠ 0))
    (hover : (pages : Int) * clampCopies req.copiesArg > cfg.maxPages)
    (hwr : env.writeFileFails = false)
    (hunlink : ∀ f, env.unlinkFails f = false) :
    (uploadPost cfg env req draws now (some (rc, out)) queue).resps =
      [mkErr ( "too many pages to print (" ++
        toString ((pages : Int) * clampCopies req.copiesArg) ++ ")")] ∧
    ∀ f ∈ (uploadPost cfg env req draws now (some (rc, out)) queue).queue,
      strHasPre (uploadFname cfg req draws now queue) f = false := by
  have hval := validate_quota cfg (clampCopies req.copiesArg) rc out pages hck hfp hnot hover
  rw [uploadPost_validation_failure cfg env req draws now (some (rc, out)) queue _
    hfile hcopies hwr hval]
  exact ⟨rfl, filter_no_pre env hunlink _ _⟩

/-- C4 witness: 3 pages × 2 copies = 6 > 5; the quota rejection names 6
and the spooled group is gone. -/
theorem uploadPost_page_quota_reject_witness :
    (uploadPost cfgCheck envOk ⟨true, "f.pdf", some "2"⟩ [7] "20200101"
        (some (0, "Pages: 3")) []).resps =
      [mkErr "too many pages to print (6)"] ∧
    ∀ f ∈ (uploadPost cfgCheck envOk ⟨true, "f.pdf", some "2"⟩ [7] "20200101"
        (some (0, "Pages: 3")) []).queue,
      strHasPre (uploadFname cfgCheck ⟨true, "f.pdf", some "2"⟩ [7] "20200101" []) f = false :=
  uploadPost_page_quota_reject cfgCheck envOk ⟨true, "f.pdf", some "2"⟩ [7] "20200101" 0
    "Pages: 3" 3 [] rfl (by decide) rfl (by decide) (by decide) (by decide) rfl (fun _ => rfl)

/-! ## C10 — early rejections leave the queue untouched -/

/-- C10: an upload rejected before spooling — no `file` field, or an
(effective) copies value exceeding the configured maximum — writes only
that error, generates no code, dispatches nothing, and leaves the queue
listing exactly as it was. -/
theorem uploadPost_early_reject (cfg : Cfg) (env : Env) (req : UploadReq)
    (draws : List Nat) (now : String) (insp : Option (Int × String)) (queue : List String) :
    (req.hasFile = false →
      uploadPost cfg env req draws now insp queue =
        ⟨[mkErr "no file uploaded"], queue, none, none⟩) ∧
    (req.hasFile = true → clampCopies req.copiesArg > cfg.maxPages →
      uploadPost cfg env req draws now insp queue =
        ⟨[mkErr "you have asked too many copies"], queue, none, none⟩) := by
  constructor
  · intro h
    rw [uploadPost]
    simp [h]
  · intro h1 h2
    rw [uploadPost]
    simp [h1, h2]

/-- C10 witness: both early-rejection paths at concrete inputs. -/
theorem uploadPost_early_reject_witness :
    uploadPost cfgArch envOk ⟨false, "a.pdf", none⟩ [1] "t" none [ "x"] =
      ⟨[mkErr "no file uploaded"], [ "x"], none, none⟩ ∧
    uploadPost cfgArch envOk ⟨true, "a.pdf", some "99"⟩ [1] "t" none [ "x"] =
      ⟨[mkErr "you have asked too many copies"], [ "x"], none, none⟩ :=
  ⟨(uploadPost_early_reject cfgArch envOk ⟨false, "a.pdf", none⟩ [1] "t" none [ "x"]).1 rfl,
   (uploadPost_early_reject cfgArch envOk ⟨true, "a.pdf", some "99"⟩ [1] "t" none [ "x"]).2 rfl
     (by decide)⟩

/-! ## C9 — print with an unknown code -/

/-- C9: when no queue filename starts with `<code>-`, the print endpoint
answers with the "no matching files" 400 envelope, dispatches no print
process, and the filesystem (queue directory included) is exactly
unchanged. -/
theorem printPost_no_match (cfg : Cfg) (env : Env) (code : String) (fs : FS)
    (hcode : code ≠ "")
    (hnone : ∀ f ∈ fs.queue, strHasPre (code ++ "-") f = false) :
    printPost cfg env code fs = ([mkErr "no matching files"], none, fs) := by
  have h0 : fs.queue.filter (strHasPre (code ++ "-")) = [] :=
    List.filter_eq_nil_iff.mpr fun f hf => by simp [hnone f hf]
  rw [printPost]
  simp [hcode, h0, sortStrings, List.insertionSort]

/-- C9 witness: code `1234` against a queue holding only `0001-a`. -/
theorem printPost_no_match_witness :
    printPost cfgArch envOk "1234" ⟨[ "0001-a"], true, []⟩ =
      ([mkErr "no matching files"], none, ⟨[ "0001-a"], true, []⟩) :=
  printPost_no_match cfgArch envOk "1234" ⟨[ "0001-a"], true, []⟩ (by decide) (by decide)

/-! ## C3 — queue resolution -/

/-- C3 counterexample: uploading a file named `doc.info` spools the
payload `0001-20200101000000.info` with sidecars `....info.info` and
`....info.copies`.  Resolving code `0001` then excludes the payload
itself (it ends in `.info`) but not the `.copies` sidecar, and the
dispatched file is the `.copies` sidecar — refuting that the first
sorted match is always the payload and never a sidecar. -/
theorem printPost_dispatches_sidecar :
    (uploadPost cfgArch envOk reqDotInfo [1] "20200101000000" none []).queue =
      [ "0001-20200101000000.info", "0001-20200101000000.info.info",
       "0001-20200101000000.info.copies"] ∧
    (printPost cfgArch envOk "0001"
        ⟨[ "0001-20200101000000.info", "0001-20200101000000.info.info",
          "0001-20200101000000.info.copies"], true, []⟩).2.1 =
      some "0001-20200101000000.info.copies" ∧
    strEndsWithB "0001-20200101000000.info.copies" ".copies" = true := by
  decide

/-- C3 (amended): resolution lists the queue names starting with
`<code>-`, drops those ending in `.info` or `.pages`, sorts, and
dispatches the first.  Whenever the code's file group is well formed —
a payload `p` plus optional sidecars `p.info` / `p.copies`, with `p`
itself not ending in `.info` or `.pages` — the dispatched file is
exactly `p`, never a sidecar.  When the payload's own name ends in
`.info` (an uploaded filename with extension `.info`), the payload is
filtered out and a `.copies` sidecar can be dispatched instead (see the
counterexample). -/
theorem printPost_resolves_payload (cfg : Cfg) (env : Env) (code : String) (fs : FS)
    (p : String)
    (hcode : code ≠ "")
    (hp : p ∈ fs.queue)
    (hpre : strHasPre (code ++ "-") p = true)
    (hinfo : strEndsWithB p ".info" = false)
    (hpages : strEndsWithB p ".pages" = false)
    (hgroup : ∀ q ∈ fs.queue, strHasPre (code ++ "-") q = true →
      q = p ∨ q = p ++ ".info" ∨ q = p ++ ".copies") :
    (printPost cfg env code fs).2.1 = some p := by
  rw [printPost]
  rw [if_neg hcode]
  have hpF : p ∈ (sortStrings (fs.queue.filter (strHasPre (code ++ "-")))).filter
      (fun f => !strEndsWithB f ".info" && !strEndsWithB f ".pages") := by
    refine List.mem_filter.mpr ⟨?_, by simp [hinfo, hpages]⟩
    unfold sortStrings
    exact (List.mem_insertionSort strLeRel).mpr (List.mem_filter.mpr ⟨hp, hpre⟩)
  have hle : ∀ q ∈ (sortStrings (fs.queue.filter (strHasPre (code ++ "-")))).filter
      (fun f => !strEndsWithB f ".info" && !strEndsWithB f ".pages"), strLeRel p q := by
    intro q hq
    have hqS := (List.mem_filter.mp hq).1
    have hkeep := (List.mem_filter.mp hq).2
    have hqG := (List.mem_insertionSort strLeRel).mp hqS
    have hqQ := (List.mem_filter.mp hqG).1
    have hqpre := (List.mem_filter.mp hqG).2
    rcases hgroup q hqQ hqpre with h | h | h
    · rw [h]
      exact strLeRel_refl p
    · rw [h] at hkeep
      have hbad := strEndsWithB_append p ".info"
      rw [hbad] at hkeep
      simp at hkeep
    · rw [h]
      exact strLeRel_append p ".copies"
  have hsorted : List.Pairwise strLeRel
      ((sortStrings (fs.queue.filter (strHasPre (code ++ "-")))).filter
        (fun f => !strEndsWithB f ".info" && !strEndsWithB f ".pages")) :=
    List.Pairwise.sublist (List.filter_sublist _)
      (@List.sorted_insertionSort String strLeRel _
        ⟨fun a b => charsLe_total a.data b.data⟩
        ⟨fun a b c => charsLe_trans a.data b.data c.data⟩ _)
  cases hFc : (sortStrings (fs.queue.filter (strHasPre (code ++ "-")))).filter
      (fun f => !strEndsWithB f ".info" && !strEndsWithB f ".pages") with
  | nil => rw [hFc] at hpF; simp at hpF
  | cons f t =>
    rw [hFc] at hpF hsorted hle
    simp only [hFc]
    rcases List.mem_cons.mp hpF with rfl | hpt
    · rfl
    · have h1 : strLeRel p f := hle f (by simp)
      have h3 : strLeRel f p := (List.pairwise_cons.mp hsorted).1 p hpt
      rw [strLeRel_antisymm h1 h3]

/-- C3 amended witness: a well-formed group for code `0001` next to an
unrelated group; the payload, not a sidecar, is dispatched. -/
theorem printPost_resolves_payload_witness :
    (printPost cfgArch envOk "0001"
        ⟨[ "0002-c.pdf", "0001-b.pdf", "0001-b.pdf.info", "0001-b.pdf.copies"], true, []⟩).2.1 =
      some "0001-b.pdf" :=
  printPost_resolves_payload cfgArch envOk "0001"
    ⟨[ "0002-c.pdf", "0001-b.pdf", "0001-b.pdf.info", "0001-b.pdf.copies"], true, []⟩
    "0001-b.pdf" (by decide) (by decide) (by decide) (by decide) (by decide) (by decide)

end Httprint
